import Mathlib

/-!
Verification development for `withlockfile` (src/withlockfile.cpp), a Windows
command-serialization supervisor: it acquires an exclusive byte-range lock on a
lock file (with a bounded retry loop), resolves and launches the given command
as a suspended child, attaches the child to a kill-on-close job object, resumes
it, waits for it to exit, releases the lock and propagates the child's exit
code.

The development is a shallow embedding: the pure helper functions
(`enforceExeExtension`, `quoteArgument`, the command-line construction and the
error-message trimming) are translated directly; `main`'s effectful control
flow is modelled as a function `run` from an environment of OS-call outcomes to
the list of OS calls performed (the trace) together with the final result, and
the two `catch` handlers are modelled by the reporting functions `reportExit`
and `reportStderr`.
-/

namespace Withlockfile

/-- Windows error code ERROR_ACCESS_DENIED (5). -/
def ERROR_ACCESS_DENIED : Nat := 5

/-- Windows error code ERROR_LOCK_VIOLATION (33), the lock-contention error
returned by LockFileEx with LOCKFILE_FAIL_IMMEDIATELY when another process
holds the lock. -/
def ERROR_LOCK_VIOLATION : Nat := 33

/-! ### Pure string helpers (lines 37-58 of withlockfile.cpp) -/

/-- ASCII lower-casing of one character, as C `tolower` behaves on the ASCII
range used by `_stricmp`. -/
def asciiLower (c : Char) : Char :=
  if 'A' ≤ c ∧ c ≤ 'Z' then Char.ofNat (c.toNat + 32) else c

/-- Case-insensitive string equality on character lists:
`_stricmp(a, b) == 0`. -/
def striEq (a b : List Char) : Bool :=
  a.map asciiLower == b.map asciiLower

/-- The condition of lines 41-42: the string is shorter than 4 characters, or
its last four characters (`exe.substr(len - 4)`) do not compare
case-insensitively equal to ".exe" under `_stricmp`. -/
def exeExtMissing (s : String) : Bool :=
  s.length < 4 || !striEq (s.toList.drop (s.length - 4)) ".exe".toList

/-- `enforceExeExtension` (lines 37-46): append ".exe" when the extension is
missing in the sense of `exeExtMissing`, else return the string unchanged. -/
def enforceExeExtension (s : String) : String :=
  if exeExtMissing s then s ++ ".exe" else s

/-- Spec-side notion for claim C7: the name already ends in the executable
extension ".exe" under case-insensitive comparison.  Stated independently of
the code's `substr`/`_stricmp` formulation, as a suffix of the lower-cased
character list. -/
def endsInExeCI (s : String) : Prop :=
  ".exe".toList <:+ s.toList.map asciiLower

instance (s : String) : Decidable (endsInExeCI s) := by
  unfold endsInExeCI; infer_instance

/-- The character test performed by `quoteArgument`:
`arg.find_first_of(" \t")` succeeds exactly when some character is a space or
a horizontal tab. -/
def isSpaceOrTab (c : Char) : Bool :=
  c == ' ' || c == '\t'

/-- `quoteArgument` (lines 48-58): if the argument contains a space or tab
character it is wrapped in double quotes verbatim (no escaping of embedded
quotes); otherwise it is returned unchanged. -/
def quoteArgument (arg : String) : String :=
  if arg.toList.any isSpaceOrTab then "\"" ++ arg ++ "\"" else arg

/-- Spec-side notion for claim C6: a "whitespace" character in the standard
C `isspace` sense (space, horizontal tab, newline, vertical tab, form feed,
carriage return).  Used only to compare the spec's wording with the code's
actual space-or-tab test. -/
def isWhitespaceSpec (c : Char) : Bool :=
  c == ' ' || c == '\t' || c == '\n' || c == '\x0b' || c == '\x0c' || c == '\r'

/-- The command-line construction of `main` (lines 120-126): start from the
quoted executable path and append a space and the quoted argument for each
caller-supplied argument in order. -/
def buildCommandLine (executable : String) (args : List String) : String :=
  args.foldl (fun acc a => acc ++ " " ++ quoteArgument a) (quoteArgument executable)

/-- Spec-side right-recursive description of the tail of the command line for
claim C6: each quoted argument preceded by a single joining space, in order. -/
def quotedTail (args : List String) : String :=
  match args with
  | [] => ""
  | a :: rest => " " ++ quoteArgument a ++ quotedTail rest

/-- The error-message trimming of the catch handler (lines 216-219): drop a
trailing carriage-return/line-feed pair (the source tests
`len > 1 && buf[len-2] == '\r' && buf[len-1] == '\n'`, which holds exactly
when the string ends in "\r\n"). -/
def stripTrailingCrLf (s : String) : String :=
  match s.toList.reverse with
  | '\n' :: '\r' :: rest => String.mk rest.reverse
  | _ => s

/-! ### OS-call trace model for `main` (lines 60-230) -/

/-- The byte range passed to LockFileEx/UnlockFileEx: the OVERLAPPED offset
(low and high 32-bit halves) and the number of bytes to lock (low and high
halves, the two explicit arguments of each call). -/
structure LockRange where
  offsetLow : Nat
  offsetHigh : Nat
  lenLow : Nat
  lenHigh : Nat
deriving DecidableEq

/-- The absolute byte offset a `LockRange` denotes. -/
def LockRange.offset (r : LockRange) : Nat :=
  r.offsetLow + r.offsetHigh * 4294967296

/-- The byte length a `LockRange` denotes. -/
def LockRange.byteLength (r : LockRange) : Nat :=
  r.lenLow + r.lenHigh * 4294967296

/-- One observable OS call made by `main`, in program order.  `closeJobHandle`
is the `CloseHandle(jobObject)` on the SetInformationJobObject failure path;
`closeLockHandle` is the `CloseHandle(f)` on the lock file handle. -/
inductive Event where
  | createFile
  | lockAttempt (i : Nat) (r : LockRange)
  | sleep (ms : Nat)
  | pathSearch
  | createProcessSuspended (commandLine : String)
  | createJobObject
  | setInfoJobObject
  | assignToJob
  | resumeChild
  | waitChild
  | getExitCode
  | unlockFile (r : LockRange)
  | closeLockHandle
  | closeJobHandle
deriving DecidableEq

/-- Outcome of one LockFileEx attempt: success, or failure with the
`GetLastError()` code observed after it. -/
inductive LockAttemptResult where
  | success
  | failure (lastError : Nat)
deriving DecidableEq

/-- How the acquisition loop of lines 83-101 ends: lock acquired (`break`),
a non-contention error thrown from inside the loop, or all iterations
exhausted without acquiring. -/
inductive LoopOutcome where
  | acquired
  | fatal (code : Nat)
  | exhausted
deriving DecidableEq

/-- Final result of `main`: the usage branch (line 63-66), normal completion
with the child's exit code (line 196), a caught `Win32Error` carrying the
failing operation's name and OS error code (lines 197-225), or a caught
generic `std::exception` carrying only a message (lines 226-229; no modelled
input produces this, it exists for non-Win32 exceptions such as allocation
failure). -/
inductive MainResult where
  | usage
  | childCode (code : Nat)
  | win32 (op : String) (code : Nat)
  | generic (msg : String)
deriving DecidableEq

/-- The outcomes the operating system hands to one execution of `main`:
the argument vector and, for each OS call site, what that call returns.
`none` / `.ok` means the call succeeds; `some c` / `.error c` means it fails
with `GetLastError() = c`.  `lockResult i` is the outcome of the i-th
LockFileEx attempt, `pathSearch` on success carries the qualified path
written into `buf`, and `exitCodeRes` on success carries the child's exit
code. -/
structure Env where
  argv : List String
  createFileErr : Option Nat
  lockResult : Nat → LockAttemptResult
  pathSearch : Except Nat String
  createProcessErr : Option Nat
  createJobErr : Option Nat
  setInfoErr : Option Nat
  assignErr : Option Nat
  resumeErr : Option Nat
  waitErr : Option Nat
  exitCodeRes : Except Nat Nat
  unlockErr : Option Nat
  closeErr : Option Nat

/-- The acquisition loop of lines 83-101, with `i` the current loop index and
`fuel` the remaining iterations (`300 - i` initially): attempt the exclusive
lock on one byte at the zeroed OVERLAPPED offset `ol`; on success stop
(`break`); on failure with ERROR_LOCK_VIOLATION sleep 1000 ms and retry; on
any other failure stop with that fatal code (the `throw`). -/
def lockLoopAux (res : Nat → LockAttemptResult) (ol : Nat × Nat) :
    Nat → Nat → List Event × LoopOutcome
  | _, 0 => ([], .exhausted)
  | i, fuel + 1 =>
    match res i with
    | .success => ([.lockAttempt i ⟨ol.1, ol.2, 1, 0⟩], .acquired)
    | .failure c =>
      if c = ERROR_LOCK_VIOLATION then
        let rest := lockLoopAux res ol (i + 1) fuel
        (.lockAttempt i ⟨ol.1, ol.2, 1, 0⟩ :: .sleep 1000 :: rest.1, rest.2)
      else
        ([.lockAttempt i ⟨ol.1, ol.2, 1, 0⟩], .fatal c)

/-- The trace of `k` consecutive contended rounds starting at attempt `i`:
each failed attempt immediately followed by its 1000 ms sleep. -/
def contentionEvents (ol : Nat × Nat) : Nat → Nat → List Event
  | _, 0 => []
  | i, k + 1 =>
    .lockAttempt i ⟨ol.1, ol.2, 1, 0⟩ :: .sleep 1000 :: contentionEvents ol (i + 1) k

/-- Recognizer for lock-attempt events. -/
def isLockAttempt (e : Event) : Bool :=
  match e with
  | .lockAttempt _ _ => true
  | _ => false

/-- Recognizer for sleep events. -/
def isSleep (e : Event) : Bool :=
  match e with
  | .sleep _ => true
  | _ => false

/-- Recognizer for UnlockFileEx events. -/
def isUnlockFile (e : Event) : Bool :=
  match e with
  | .unlockFile _ => true
  | _ => false

/-- Lines 175-196 of `main`: resume the child, wait for it, read its exit
code, unlock the locked byte range and close the lock-file handle.  `evs0`
is the trace so far and `ol` the zeroed OVERLAPPED offset. -/
def superviseTail (env : Env) (ol : Nat × Nat) (evs0 : List Event) :
    List Event × MainResult :=
  let evs := evs0 ++ [Event.resumeChild]
  match env.resumeErr with
  | some c => (evs, .win32 "ResumeThread" c)
  | none =>
    let evs := evs ++ [Event.waitChild]
    match env.waitErr with
    | some c => (evs, .win32 "WaitForSingleObject" c)
    | none =>
      let evs := evs ++ [Event.getExitCode]
      match env.exitCodeRes with
      | .error c => (evs, .win32 "GetExitCodeProcess" c)
      | .ok exitCode =>
        let evs := evs ++ [Event.unlockFile ⟨ol.1, ol.2, 1, 0⟩]
        match env.unlockErr with
        | some c => (evs, .win32 "UnlockFileEx" c)
        | none =>
          let evs := evs ++ [Event.closeLockHandle]
          match env.closeErr with
          | some c => (evs, .win32 "CloseHandle" c)
          | none => (evs, .childCode exitCode)

/-- Lines 107-173 of `main`, entered once the lock has been acquired:
resolve the executable, build the command line, create the suspended child,
create and configure the job object, assign the child to it (tolerating
ERROR_ACCESS_DENIED), and hand over to `superviseTail`. -/
def superviseChild (env : Env) (ol : Nat × Nat) (evs0 : List Event) :
    List Event × MainResult :=
  match env.pathSearch with
  | .error c => (evs0 ++ [.pathSearch], .win32 "PathSearchAndQualifyA" c)
  | .ok resolved =>
    let evs := evs0 ++ [Event.pathSearch]
    let commandLine := buildCommandLine resolved (env.argv.drop 3)
    let evs := evs ++ [Event.createProcessSuspended commandLine]
    match env.createProcessErr with
    | some c => (evs, .win32 "CreateProcessA" c)
    | none =>
      let evs := evs ++ [Event.createJobObject]
      match env.createJobErr with
      | some c => (evs, .win32 "CreateJobObject" c)
      | none =>
        let evs := evs ++ [Event.setInfoJobObject]
        match env.setInfoErr with
        | some c => (evs ++ [Event.closeJobHandle], .win32 "SetInformationJobObject" c)
        | none =>
          let evs := evs ++ [Event.assignToJob]
          match env.assignErr with
          | some c =>
            if c ≠ ERROR_ACCESS_DENIED then
              (evs, .win32 "AssignProcessToJobObject" c)
            else
              superviseTail env ol evs
          | none => superviseTail env ol evs

/-- `main` (lines 60-230) as a trace-producing function of the OS outcomes:
the usage check (`argc < 3`), CreateFileA on the lock file, the zeroed
OVERLAPPED structure, the 300-iteration acquisition loop, the post-loop
`lockAcquired` check that raises the timeout error with
ERROR_LOCK_VIOLATION, and then the supervision sequence. -/
def run (env : Env) : List Event × MainResult :=
  if env.argv.length < 3 then
    ([], .usage)
  else
    match env.createFileErr with
    | some c => ([.createFile], .win32 "CreateFileA" c)
    | none =>
      let ol : Nat × Nat := (0, 0)
      let r := lockLoopAux env.lockResult ol 0 300
      let evs := Event.createFile :: r.1
      match r.2 with
      | .fatal c => (evs, .win32 "LockFileEx" c)
      | .exhausted => (evs, .win32 "LockFileEx" ERROR_LOCK_VIOLATION)
      | .acquired => superviseChild env ol evs

/-- The process exit status produced from a `MainResult` by `main`'s returns
and catch handlers: line 65 (usage → 1), line 196 (child's code), line 225
(the Win32 error code), line 228 (generic failure → 1). -/
def reportExit (r : MainResult) : Nat :=
  match r with
  | .usage => 1
  | .childCode c => c
  | .win32 _ c => c
  | .generic _ => 1

/-- The line `main` writes to standard error, if any, given the
FormatMessageA message lookup `fm`: the usage message (line 64), nothing on
normal completion, `error: <op> failed: <msg> (code <N>)` with the trailing
CRLF stripped from the message (lines 203-223), or `error: <msg>`
(line 227).  Line terminators are left implicit. -/
def reportStderr (fm : Nat → String) (r : MainResult) : Option String :=
  match r with
  | .usage => some "usage: withlockfile <lockfile> <command> [args..]"
  | .childCode _ => none
  | .win32 op c =>
      some ("error: " ++ op ++ " failed: " ++ stripTrailingCrLf (fm c)
        ++ " (code " ++ toString c ++ ")")
  | .generic msg => some ("error: " ++ msg)

/-- The kinds of events the supervision phase (lines 107-196) can emit, for
a given OVERLAPPED offset `ol`; in particular no lock attempt, no sleep, and
every unlock is over the same one-byte range at `ol` that was locked. -/
def superviseEvent (ol : Nat × Nat) (e : Event) : Prop :=
  e = .pathSearch ∨ (∃ cl, e = .createProcessSuspended cl) ∨ e = .createJobObject ∨
    e = .setInfoJobObject ∨ e = .closeJobHandle ∨ e = .assignToJob ∨
    e = .resumeChild ∨ e = .waitChild ∨ e = .getExitCode ∨
    e = .unlockFile ⟨ol.1, ol.2, 1, 0⟩ ∨ e = .closeLockHandle

/-! ### Lemmas about the acquisition loop -/

theorem lockLoopAux_zero (res : Nat → LockAttemptResult) (ol : Nat × Nat) (i : Nat) :
    lockLoopAux res ol i 0 = ([], .exhausted) := rfl

theorem lockLoopAux_succ_success (res : Nat → LockAttemptResult) (ol : Nat × Nat)
    (i fuel : Nat) (h : res i = .success) :
    lockLoopAux res ol i (fuel + 1) =
      ([.lockAttempt i ⟨ol.1, ol.2, 1, 0⟩], .acquired) := by
  simp [lockLoopAux, h]

theorem lockLoopAux_succ_contention (res : Nat → LockAttemptResult) (ol : Nat × Nat)
    (i fuel : Nat) (h : res i = .failure ERROR_LOCK_VIOLATION) :
    lockLoopAux res ol i (fuel + 1) =
      (.lockAttempt i ⟨ol.1, ol.2, 1, 0⟩ :: .sleep 1000 ::
         (lockLoopAux res ol (i + 1) fuel).1,
       (lockLoopAux res ol (i + 1) fuel).2) := by
  simp [lockLoopAux, h]

theorem lockLoopAux_succ_fatal (res : Nat → LockAttemptResult) (ol : Nat × Nat)
    (i fuel c : Nat) (h : res i = .failure c) (hc : c ≠ ERROR_LOCK_VIOLATION) :
    lockLoopAux res ol i (fuel + 1) =
      ([.lockAttempt i ⟨ol.1, ol.2, 1, 0⟩], .fatal c) := by
  simp [lockLoopAux, h, hc]

theorem lockLoopAux_countP_attempt_le (res : Nat → LockAttemptResult) (ol : Nat × Nat) :
    ∀ fuel i, ((lockLoopAux res ol i fuel).1.countP isLockAttempt) ≤ fuel := by
  intro fuel
  induction fuel with
  | zero => intro i; simp [lockLoopAux_zero]
  | succ n ih =>
    intro i
    cases hres : res i with
    | success =>
      rw [lockLoopAux_succ_success res ol i n hres]
      simp [List.countP_cons, isLockAttempt]
    | failure c =>
      by_cases hc : c = ERROR_LOCK_VIOLATION
      · subst hc
        rw [lockLoopAux_succ_contention res ol i n hres]
        simp only [List.countP_cons, isLockAttempt, isSleep]
        simpa using ih (i + 1)
      · rw [lockLoopAux_succ_fatal res ol i n c hres hc]
        simp [List.countP_cons, isLockAttempt]

theorem lockLoopAux_fatal_ne (res : Nat → LockAttemptResult) (ol : Nat × Nat) :
    ∀ fuel i evs c, lockLoopAux res ol i fuel = (evs, .fatal c) →
      c ≠ ERROR_LOCK_VIOLATION := by
  intro fuel
  induction fuel with
  | zero =>
    intro i evs c h
    rw [lockLoopAux_zero] at h
    exact absurd (congrArg Prod.snd h) (by simp)
  | succ n ih =>
    intro i evs c h
    cases hres : res i with
    | success =>
      rw [lockLoopAux_succ_success res ol i n hres] at h
      exact absurd (congrArg Prod.snd h) (by simp)
    | failure c' =>
      by_cases hc : c' = ERROR_LOCK_VIOLATION
      · subst hc
        rw [lockLoopAux_succ_contention res ol i n hres] at h
        have h2 := congrArg Prod.snd h
        simp only at h2
        exact ih (i + 1) (lockLoopAux res ol (i + 1) n).1 c (by
          rw [← h2])
      · rw [lockLoopAux_succ_fatal res ol i n c' hres hc] at h
        have h2 := congrArg Prod.snd h
        simp only at h2
        cases h2
        exact hc

theorem lockLoopAux_mem (res : Nat → LockAttemptResult) (ol : Nat × Nat) :
    ∀ fuel i e, e ∈ (lockLoopAux res ol i fuel).1 →
      (∃ j, e = .lockAttempt j ⟨ol.1, ol.2, 1, 0⟩) ∨ e = .sleep 1000 := by
  intro fuel
  induction fuel with
  | zero => intro i e h; rw [lockLoopAux_zero] at h; simp at h
  | succ n ih =>
    intro i e h
    cases hres : res i with
    | success =>
      rw [lockLoopAux_succ_success res ol i n hres] at h
      simp at h
      exact Or.inl ⟨i, h⟩
    | failure c =>
      by_cases hc : c = ERROR_LOCK_VIOLATION
      · subst hc
        rw [lockLoopAux_succ_contention res ol i n hres] at h
        simp only [List.mem_cons] at h
        rcases h with h | h | h
        · exact Or.inl ⟨i, h⟩
        · exact Or.inr h
        · exact ih (i + 1) e h
      · rw [lockLoopAux_succ_fatal res ol i n c hres hc] at h
        simp at h
        exact Or.inl ⟨i, h⟩

theorem lockLoopAux_acquired_decomp (res : Nat → LockAttemptResult) (ol : Nat × Nat) :
    ∀ fuel i evs, lockLoopAux res ol i fuel = (evs, .acquired) →
      ∃ pre j, evs = pre ++ [.lockAttempt j ⟨ol.1, ol.2, 1, 0⟩] ∧
        res j = .success ∧
        ∀ e ∈ pre, (∃ m r, e = Event.lockAttempt m r) ∨ e = .sleep 1000 := by
  intro fuel
  induction fuel with
  | zero =>
    intro i evs h
    rw [lockLoopAux_zero] at h
    exact absurd (congrArg Prod.snd h) (by simp)
  | succ n ih =>
    intro i evs h
    cases hres : res i with
    | success =>
      rw [lockLoopAux_succ_success res ol i n hres] at h
      have h1 := congrArg Prod.fst h
      simp only at h1
      exact ⟨[], i, by simp [← h1], hres, by simp⟩
    | failure c =>
      by_cases hc : c = ERROR_LOCK_VIOLATION
      · subst hc
        rw [lockLoopAux_succ_contention res ol i n hres] at h
        have h1 := congrArg Prod.fst h
        have h2 := congrArg Prod.snd h
        simp only at h1 h2
        obtain ⟨pre, j, hpre, hj, hmem⟩ :=
          ih (i + 1) (lockLoopAux res ol (i + 1) n).1 (by rw [← h2])
        refine ⟨.lockAttempt i ⟨ol.1, ol.2, 1, 0⟩ :: .sleep 1000 :: pre, j, ?_, hj, ?_⟩
        · rw [← h1, hpre]; simp
        · intro e he
          simp only [List.mem_cons] at he
          rcases he with he | he | he
          · exact Or.inl ⟨i, _, he⟩
          · exact Or.inr he
          · exact hmem e he
      · rw [lockLoopAux_succ_fatal res ol i n c hres hc] at h
        exact absurd (congrArg Prod.snd h) (by simp)

theorem lockLoopAux_all_contention (res : Nat → LockAttemptResult) (ol : Nat × Nat) :
    ∀ fuel i, (∀ j, j < fuel → res (i + j) = .failure ERROR_LOCK_VIOLATION) →
      lockLoopAux res ol i fuel = (contentionEvents ol i fuel, .exhausted) := by
  intro fuel
  induction fuel with
  | zero => intro i _; rfl
  | succ n ih =>
    intro i h
    have h0 : res i = .failure ERROR_LOCK_VIOLATION := by
      have := h 0 (Nat.succ_pos n); simpa using this
    rw [lockLoopAux_succ_contention res ol i n h0]
    have hrest := ih (i + 1) (fun j hj => by
      have := h (j + 1) (Nat.succ_lt_succ hj)
      simpa [Nat.add_assoc, Nat.add_comm 1 j] using this)
    rw [hrest]
    rfl

theorem lockLoopAux_first_success (res : Nat → LockAttemptResult) (ol : Nat × Nat) :
    ∀ k fuel i, k < fuel →
      (∀ j, j < k → res (i + j) = .failure ERROR_LOCK_VIOLATION) →
      res (i + k) = .success →
      lockLoopAux res ol i fuel =
        (contentionEvents ol i k ++ [.lockAttempt (i + k) ⟨ol.1, ol.2, 1, 0⟩],
         .acquired) := by
  intro k
  induction k with
  | zero =>
    intro fuel i hk _ hs
    cases fuel with
    | zero => exact absurd hk (by simp)
    | succ n =>
      rw [lockLoopAux_succ_success res ol i n (by simpa using hs)]
      simp [contentionEvents]
  | succ m ih =>
    intro fuel i hk hcont hs
    cases fuel with
    | zero => exact absurd hk (by simp)
    | succ n =>
      have h0 : res i = .failure ERROR_LOCK_VIOLATION := by
        have := hcont 0 (Nat.succ_pos m); simpa using this
      rw [lockLoopAux_succ_contention res ol i n h0]
      have hrec := ih n (i + 1) (Nat.lt_of_succ_lt_succ hk)
        (fun j hj => by
          have := hcont (j + 1) (Nat.succ_lt_succ hj)
          simpa [Nat.add_assoc, Nat.add_comm 1 j] using this)
        (by
          have : i + 1 + m = i + (m + 1) := by omega
          rw [this]; exact hs)
      rw [hrec]
      have : i + 1 + m = i + (m + 1) := by omega
      simp [contentionEvents, this]

theorem lockLoopAux_first_fatal (res : Nat → LockAttemptResult) (ol : Nat × Nat) :
    ∀ k fuel i c, k < fuel →
      (∀ j, j < k → res (i + j) = .failure ERROR_LOCK_VIOLATION) →
      res (i + k) = .failure c → c ≠ ERROR_LOCK_VIOLATION →
      lockLoopAux res ol i fuel =
        (contentionEvents ol i k ++ [.lockAttempt (i + k) ⟨ol.1, ol.2, 1, 0⟩],
         .fatal c) := by
  intro k
  induction k with
  | zero =>
    intro fuel i c hk _ hf hc
    cases fuel with
    | zero => exact absurd hk (by simp)
    | succ n =>
      rw [lockLoopAux_succ_fatal res ol i n c (by simpa using hf) hc]
      simp [contentionEvents]
  | succ m ih =>
    intro fuel i c hk hcont hf hc
    cases fuel with
    | zero => exact absurd hk (by simp)
    | succ n =>
      have h0 : res i = .failure ERROR_LOCK_VIOLATION := by
        have := hcont 0 (Nat.succ_pos m); simpa using this
      rw [lockLoopAux_succ_contention res ol i n h0]
      have hrec := ih n (i + 1) c (Nat.lt_of_succ_lt_succ hk)
        (fun j hj => by
          have := hcont (j + 1) (Nat.succ_lt_succ hj)
          simpa [Nat.add_assoc, Nat.add_comm 1 j] using this)
        (by
          have : i + 1 + m = i + (m + 1) := by omega
          rw [this]; exact hf)
        hc
      rw [hrec]
      have : i + 1 + m = i + (m + 1) := by omega
      simp [contentionEvents, this]

theorem contentionEvents_countP_attempt (ol : Nat × Nat) :
    ∀ k i, (contentionEvents ol i k).countP isLockAttempt = k := by
  intro k
  induction k with
  | zero => intro i; rfl
  | succ n ih =>
    intro i
    simp [contentionEvents, List.countP_cons, isLockAttempt, ih (i + 1)]

theorem contentionEvents_countP_sleep (ol : Nat × Nat) :
    ∀ k i, (contentionEvents ol i k).countP isSleep = k := by
  intro k
  induction k with
  | zero => intro i; rfl
  | succ n ih =>
    intro i
    simp [contentionEvents, List.countP_cons, isLockAttempt, isSleep, ih (i + 1)]

theorem contentionEvents_ends_with_sleep (ol : Nat × Nat) :
    ∀ k i, ∃ l, contentionEvents ol i (k + 1) = l ++ [Event.sleep 1000] := by
  intro k
  induction k with
  | zero => intro i; exact ⟨[.lockAttempt i ⟨ol.1, ol.2, 1, 0⟩], rfl⟩
  | succ n ih =>
    intro i
    obtain ⟨l, hl⟩ := ih (i + 1)
    refine ⟨.lockAttempt i ⟨ol.1, ol.2, 1, 0⟩ :: .sleep 1000 :: l, ?_⟩
    rw [show contentionEvents ol i (n + 1 + 1) =
          .lockAttempt i ⟨ol.1, ol.2, 1, 0⟩ :: .sleep 1000 ::
            contentionEvents ol (i + 1) (n + 1) from rfl, hl]
    simp

/-! ### Lemmas about the supervision phase -/

theorem mem_append_supervise {ol : Nat × Nat} {evs0 l : List Event} {e : Event}
    (he : e ∈ evs0 ++ l) (hl : ∀ x ∈ l, superviseEvent ol x) :
    e ∈ evs0 ∨ superviseEvent ol e := by
  rcases List.mem_append.mp he with h | h
  · exact Or.inl h
  · exact Or.inr (hl e h)

theorem superviseTail_mem (env : Env) (ol : Nat × Nat) (evs0 : List Event) (e : Event)
    (he : e ∈ (superviseTail env ol evs0).1) : e ∈ evs0 ∨ superviseEvent ol e := by
  simp only [superviseTail] at he
  rcases hre : env.resumeErr with _ | c1 <;> simp only [hre] at he
  · rcases hwe : env.waitErr with _ | c2 <;> simp only [hwe] at he
    · rcases hec : env.exitCodeRes with c3 | k <;> simp only [hec] at he
      · simp only [List.append_assoc] at he
        exact mem_append_supervise he
          (by intro x hx; fin_cases hx <;> simp [superviseEvent])
      · rcases hue : env.unlockErr with _ | c4 <;> simp only [hue] at he
        · rcases hce : env.closeErr with _ | c5 <;> simp only [hce] at he <;>
            simp only [List.append_assoc] at he <;>
            exact mem_append_supervise he
              (by intro x hx; fin_cases hx <;> simp [superviseEvent])
        · simp only [List.append_assoc] at he
          exact mem_append_supervise he
            (by intro x hx; fin_cases hx <;> simp [superviseEvent])
    · simp only [List.append_assoc] at he
      exact mem_append_supervise he
        (by intro x hx; fin_cases hx <;> simp [superviseEvent])
  · exact mem_append_supervise he
      (by intro x hx; fin_cases hx <;> simp [superviseEvent])

theorem superviseChild_mem (env : Env) (ol : Nat × Nat) (evs0 : List Event) (e : Event)
    (he : e ∈ (superviseChild env ol evs0).1) : e ∈ evs0 ∨ superviseEvent ol e := by
  have tailStep : ∀ l, e ∈ (superviseTail env ol (evs0 ++ l)).1 →
      (∀ x ∈ l, superviseEvent ol x) → e ∈ evs0 ∨ superviseEvent ol e := by
    intro l h1 h2
    rcases superviseTail_mem env ol (evs0 ++ l) e h1 with h | h
    · exact mem_append_supervise h h2
    · exact Or.inr h
  simp only [superviseChild] at he
  rcases hps : env.pathSearch with c0 | p <;> simp only [hps] at he
  · exact mem_append_supervise he
      (by intro x hx; fin_cases hx <;> simp [superviseEvent])
  · rcases hcpe : env.createProcessErr with _ | c1 <;> simp only [hcpe] at he
    · rcases hcje : env.createJobErr with _ | c2 <;> simp only [hcje] at he
      · rcases hsie : env.setInfoErr with _ | c3 <;> simp only [hsie] at he
        · rcases hae : env.assignErr with _ | c4 <;> simp only [hae] at he
          · simp only [List.append_assoc] at he
            exact tailStep _ he
              (by intro x hx; fin_cases hx <;> simp [superviseEvent])
          · by_cases hc4 : c4 = ERROR_ACCESS_DENIED
            · rw [if_neg (by simpa using hc4)] at he
              simp only [List.append_assoc] at he
              exact tailStep _ he
                (by intro x hx; fin_cases hx <;> simp [superviseEvent])
            · rw [if_pos (by simpa using hc4)] at he
              simp only [List.append_assoc] at he
              exact mem_append_supervise he
                (by intro x hx; fin_cases hx <;> simp [superviseEvent])
        · simp only [List.append_assoc] at he
          exact mem_append_supervise he
            (by intro x hx; fin_cases hx <;> simp [superviseEvent])
      · simp only [List.append_assoc] at he
        exact mem_append_supervise he
          (by intro x hx; fin_cases hx <;> simp [superviseEvent])
    · simp only [List.append_assoc] at he
      exact mem_append_supervise he
        (by intro x hx; fin_cases hx <;> simp [superviseEvent])

/-! ### Run-level path lemmas -/

theorem run_usage (env : Env) (h : env.argv.length < 3) : run env = ([], .usage) := by
  unfold run
  rw [if_pos h]

theorem run_createFile_fail (env : Env) (h : ¬ env.argv.length < 3) (c : Nat)
    (hc : env.createFileErr = some c) :
    run env = ([.createFile], .win32 "CreateFileA" c) := by
  unfold run
  rw [if_neg h]
  simp only [hc]

theorem run_lock_fatal (env : Env) (h : ¬ env.argv.length < 3)
    (hc : env.createFileErr = none) (levs : List Event) (c : Nat)
    (hl : lockLoopAux env.lockResult (0, 0) 0 300 = (levs, .fatal c)) :
    run env = (Event.createFile :: levs, .win32 "LockFileEx" c) := by
  unfold run
  rw [if_neg h]
  simp only [hc, hl]

theorem run_lock_exhausted (env : Env) (h : ¬ env.argv.length < 3)
    (hc : env.createFileErr = none) (levs : List Event)
    (hl : lockLoopAux env.lockResult (0, 0) 0 300 = (levs, .exhausted)) :
    run env = (Event.createFile :: levs, .win32 "LockFileEx" ERROR_LOCK_VIOLATION) := by
  unfold run
  rw [if_neg h]
  simp only [hc, hl]

theorem run_acquired (env : Env) (h : ¬ env.argv.length < 3)
    (hc : env.createFileErr = none) (levs : List Event)
    (hl : lockLoopAux env.lockResult (0, 0) 0 300 = (levs, .acquired)) :
    run env = superviseChild env (0, 0) (Event.createFile :: levs) := by
  unfold run
  rw [if_neg h]
  simp only [hc, hl]

/-! ### The extension-normalization helper (claim C7 groundwork) -/

theorem exeExtMissing_false_iff (s : String) :
    exeExtMissing s = false ↔ endsInExeCI s := by
  have hlow : ".exe".toList.map asciiLower = ".exe".toList := by decide
  have hlen4 : (".exe".toList).length = 4 := by decide
  have hmap : (s.toList.map asciiLower).length = s.length := by
    rw [List.length_map]; rfl
  unfold exeExtMissing endsInExeCI striEq
  rw [Bool.or_eq_false_iff, decide_eq_false_iff_not, Bool.not_eq_false',
    beq_iff_eq, List.map_drop, hlow, List.suffix_iff_eq_drop, hmap, hlen4]
  constructor
  · rintro ⟨_, h2⟩
    exact h2.symm
  · intro h
    refine ⟨?_, h.symm⟩
    intro hlt
    have hlen := congrArg List.length h
    rw [hlen4, List.length_drop, hmap] at hlen
    omega

theorem enforceExeExtension_of_ends (s : String) (h : endsInExeCI s) :
    enforceExeExtension s = s := by
  unfold enforceExeExtension
  have hc := (exeExtMissing_false_iff s).mpr h
  rw [if_neg (by rw [hc]; simp)]

theorem enforceExeExtension_of_not_ends (s : String) (h : ¬ endsInExeCI s) :
    enforceExeExtension s = s ++ ".exe" := by
  unfold enforceExeExtension
  have hc : exeExtMissing s = true := by
    cases hcc : exeExtMissing s
    · exact absurd ((exeExtMissing_false_iff s).mp hcc) h
    · rfl
  rw [if_pos hc]

theorem endsInExeCI_append_exe (s : String) : endsInExeCI (s ++ ".exe") := by
  unfold endsInExeCI
  have hdata : (s ++ ".exe").toList = s.toList ++ ".exe".toList := by
    simp [String.toList]
  rw [hdata, List.map_append]
  have hlow : ".exe".toList.map asciiLower = ".exe".toList := by decide
  rw [hlow]
  exact List.suffix_append _ _

/-! ### Claim C7: extension normalization -/

/-- C7: `enforceExeExtension` appends ".exe" exactly when the name does not
already end in ".exe" under case-insensitive comparison; a name given without
the extension normalizes to the same string as the same name given with the
extension; and the normalization is idempotent. -/
theorem c7_extension_normalization (s : String) :
    (endsInExeCI s → enforceExeExtension s = s) ∧
    (¬ endsInExeCI s → enforceExeExtension s = s ++ ".exe") ∧
    (¬ endsInExeCI s → enforceExeExtension s = enforceExeExtension (s ++ ".exe")) ∧
    enforceExeExtension (enforceExeExtension s) = enforceExeExtension s := by
  refine ⟨enforceExeExtension_of_ends s, enforceExeExtension_of_not_ends s, ?_, ?_⟩
  · intro h
    rw [enforceExeExtension_of_not_ends s h,
      enforceExeExtension_of_ends _ (endsInExeCI_append_exe s)]
  · by_cases h : endsInExeCI s
    · rw [enforceExeExtension_of_ends s h, enforceExeExtension_of_ends s h]
    · rw [enforceExeExtension_of_not_ends s h,
        enforceExeExtension_of_ends _ (endsInExeCI_append_exe s)]

/-- Witness for C7 at the concrete name "cmd". -/
theorem c7_extension_normalization_witness :
    enforceExeExtension "cmd" = "cmd" ++ ".exe" ∧
    enforceExeExtension "cmd" = enforceExeExtension ("cmd" ++ ".exe") ∧
    enforceExeExtension (enforceExeExtension "cmd") = enforceExeExtension "cmd" := by
  have h := c7_extension_normalization "cmd"
  have hn : ¬ endsInExeCI "cmd" := by decide
  exact ⟨h.2.1 hn, h.2.2.1 hn, h.2.2.2⟩

/-! ### Claim C6: argument quoting and command-line construction -/

theorem foldl_quote_eq (args : List String) :
    ∀ x : String, args.foldl (fun acc a => acc ++ " " ++ quoteArgument a) x
      = x ++ quotedTail args := by
  induction args with
  | nil => intro x; simp [quotedTail]
  | cons a rest ih =>
    intro x
    simp only [List.foldl_cons, quotedTail]
    rw [ih (x ++ " " ++ quoteArgument a)]
    simp [String.append_assoc]

theorem buildCommandLine_eq (exe : String) (args : List String) :
    buildCommandLine exe args = quoteArgument exe ++ quotedTail args :=
  foldl_quote_eq args (quoteArgument exe)

/-- C6 counterexample: the argument "a\nb" contains whitespace (a newline) in
the standard sense, yet `quoteArgument` does not wrap it — the source only
tests for space and tab (`find_first_of(" \t")`), so "wraps exactly when the
argument contains whitespace" fails at this input. -/
theorem c6_counterexample :
    ("a\nb" : String).toList.any isWhitespaceSpec = true ∧
    quoteArgument "a\nb" = "a\nb" ∧
    quoteArgument "a\nb" ≠ "\"" ++ "a\nb" ++ "\"" := by
  exact ⟨by decide, by decide, by decide⟩

/-- C6 (amended): quoting wraps the argument in double quotes verbatim (no
internal escaping) exactly when the argument contains a space or tab
character, and leaves it unchanged otherwise; and the built command line is
the quoted executable path followed by each quoted caller-supplied argument,
space-joined, in the order given. -/
theorem c6_command_line_quoting (exe arg : String) (args : List String) :
    (arg.toList.any isSpaceOrTab = true → quoteArgument arg = "\"" ++ arg ++ "\"") ∧
    (arg.toList.any isSpaceOrTab = false → quoteArgument arg = arg) ∧
    buildCommandLine exe args = quoteArgument exe ++ quotedTail args := by
  refine ⟨?_, ?_, buildCommandLine_eq exe args⟩
  · intro h
    unfold quoteArgument
    rw [if_pos h]
  · intro h
    unfold quoteArgument
    rw [if_neg (by rw [h]; simp)]

/-- Witness for C6 (amended) at concrete arguments. -/
theorem c6_command_line_quoting_witness :
    quoteArgument "a b" = "\"" ++ "a b" ++ "\"" ∧
    quoteArgument "ab" = "ab" ∧
    buildCommandLine "C:/dir/cmd.exe" ["a", "b c"] = "C:/dir/cmd.exe a \"b c\"" := by
  have h1 := (c6_command_line_quoting "C:/dir/cmd.exe" "a b" ["a", "b c"]).1 (by decide)
  have h2 := (c6_command_line_quoting "C:/dir/cmd.exe" "ab" ["a", "b c"]).2.1 (by decide)
  have h3 := (c6_command_line_quoting "C:/dir/cmd.exe" "x" ["a", "b c"]).2.2
  refine ⟨h1, h2, ?_⟩
  rw [h3]
  decide

/-! ### Claim C5: exit status and diagnostics -/

/-- C5: fewer than 2 positional arguments yields the usage result, reported
with exit status 1 and the usage message; normal completion yields the
child's own exit code with nothing on standard error; an OS-level failure
yields the numeric OS error code and the line
`error: <operation> failed: <OS message> (code <N>)`; a generic failure
yields exit status 1 and the line `error: <message>`. -/
theorem c5_exit_status_mapping (env : Env) (fm : Nat → String) (c : Nat)
    (op msg : String) :
    (env.argv.length < 3 → run env = ([], .usage)) ∧
    reportExit .usage = 1 ∧
    reportStderr fm .usage = some "usage: withlockfile <lockfile> <command> [args..]" ∧
    reportExit (.childCode c) = c ∧
    reportStderr fm (.childCode c) = none ∧
    reportExit (.win32 op c) = c ∧
    reportStderr fm (.win32 op c) =
      some ("error: " ++ op ++ " failed: " ++ stripTrailingCrLf (fm c) ++
        " (code " ++ toString c ++ ")") ∧
    reportExit (.generic msg) = 1 ∧
    reportStderr fm (.generic msg) = some ("error: " ++ msg) :=
  ⟨run_usage env, rfl, rfl, rfl, rfl, rfl, rfl, rfl, rfl⟩

/-- Witness for C5 at a one-argument invocation and the timeout error code. -/
theorem c5_exit_status_mapping_witness :
    run ⟨["withlockfile"], none, fun _ => .success, .ok "x", none, none, none, none,
      none, none, .ok 0, none, none⟩ = ([], .usage) ∧
    reportExit (.win32 "LockFileEx" 33) = 33 := by
  have h := c5_exit_status_mapping
    ⟨["withlockfile"], none, fun _ => .success, .ok "x", none, none, none, none,
      none, none, .ok 0, none, none⟩ (fun _ => "msg") 33 "LockFileEx" "m"
  exact ⟨h.1 (by decide), h.2.2.2.2.2.1⟩

/-! ### Trace decomposition of the supervision phase -/

theorem superviseTail_decomp (env : Env) (ol : Nat × Nat) (evs0 : List Event) :
    ∃ tail, (superviseTail env ol evs0).1 = evs0 ++ tail ∧
      ∀ x ∈ tail, superviseEvent ol x := by
  simp only [superviseTail]
  rcases hre : env.resumeErr with _ | c1 <;> simp only [hre]
  · rcases hwe : env.waitErr with _ | c2 <;> simp only [hwe]
    · rcases hec : env.exitCodeRes with c3 | k <;> simp only [hec]
      · exact ⟨[.resumeChild, .waitChild, .getExitCode], by simp,
          by intro x hx; fin_cases hx <;> simp [superviseEvent]⟩
      · rcases hue : env.unlockErr with _ | c4 <;> simp only [hue]
        · rcases hce : env.closeErr with _ | c5 <;> simp only [hce] <;>
            exact ⟨[.resumeChild, .waitChild, .getExitCode,
                .unlockFile ⟨ol.1, ol.2, 1, 0⟩, .closeLockHandle], by simp,
              by intro x hx; fin_cases hx <;> simp [superviseEvent]⟩
        · exact ⟨[.resumeChild, .waitChild, .getExitCode,
              .unlockFile ⟨ol.1, ol.2, 1, 0⟩], by simp,
            by intro x hx; fin_cases hx <;> simp [superviseEvent]⟩
    · exact ⟨[.resumeChild, .waitChild], by simp,
        by intro x hx; fin_cases hx <;> simp [superviseEvent]⟩
  · exact ⟨[.resumeChild], by simp,
      by intro x hx; fin_cases hx <;> simp [superviseEvent]⟩

theorem superviseChild_decomp (env : Env) (ol : Nat × Nat) (evs0 : List Event) :
    ∃ tail, (superviseChild env ol evs0).1 = evs0 ++ tail ∧
      ∀ x ∈ tail, superviseEvent ol x := by
  have tailCase : ∀ (l : List Event), (∀ x ∈ l, superviseEvent ol x) →
      ∃ tail, (superviseTail env ol (evs0 ++ l)).1 = evs0 ++ tail ∧
        ∀ x ∈ tail, superviseEvent ol x := by
    intro l hl
    obtain ⟨tail', h1, h2⟩ := superviseTail_decomp env ol (evs0 ++ l)
    refine ⟨l ++ tail', by rw [h1, List.append_assoc], ?_⟩
    intro x hx
    rcases List.mem_append.mp hx with h | h
    · exact hl x h
    · exact h2 x h
  simp only [superviseChild]
  rcases hps : env.pathSearch with c0 | p <;> simp only [hps]
  · exact ⟨[.pathSearch], by simp, by intro x hx; fin_cases hx <;> simp [superviseEvent]⟩
  · rcases hcpe : env.createProcessErr with _ | c1 <;> simp only [hcpe]
    · rcases hcje : env.createJobErr with _ | c2 <;> simp only [hcje]
      · rcases hsie : env.setInfoErr with _ | c3 <;> simp only [hsie]
        · rcases hae : env.assignErr with _ | c4 <;> simp only [hae]
          · have := tailCase
              [.pathSearch,
               .createProcessSuspended (buildCommandLine p (env.argv.drop 3)),
               .createJobObject, .setInfoJobObject, .assignToJob]
              (by intro x hx; fin_cases hx <;> simp [superviseEvent])
            simpa [List.append_assoc] using this
          · by_cases hc4 : c4 = ERROR_ACCESS_DENIED
            · rw [if_neg (by simpa using hc4)]
              have := tailCase
                [.pathSearch,
                 .createProcessSuspended (buildCommandLine p (env.argv.drop 3)),
                 .createJobObject, .setInfoJobObject, .assignToJob]
                (by intro x hx; fin_cases hx <;> simp [superviseEvent])
              simpa [List.append_assoc] using this
            · rw [if_pos (by simpa using hc4)]
              exact ⟨[.pathSearch,
                  .createProcessSuspended (buildCommandLine p (env.argv.drop 3)),
                  .createJobObject, .setInfoJobObject, .assignToJob],
                by simp, by intro x hx; fin_cases hx <;> simp [superviseEvent]⟩
        · exact ⟨[.pathSearch,
              .createProcessSuspended (buildCommandLine p (env.argv.drop 3)),
              .createJobObject, .setInfoJobObject, .closeJobHandle],
            by simp, by intro x hx; fin_cases hx <;> simp [superviseEvent]⟩
      · exact ⟨[.pathSearch,
            .createProcessSuspended (buildCommandLine p (env.argv.drop 3)),
            .createJobObject],
          by simp, by intro x hx; fin_cases hx <;> simp [superviseEvent]⟩
    · exact ⟨[.pathSearch,
          .createProcessSuspended (buildCommandLine p (env.argv.drop 3))],
        by simp, by intro x hx; fin_cases hx <;> simp [superviseEvent]⟩

theorem superviseEvent_not_lockAttempt {ol : Nat × Nat} {e : Event}
    (h : superviseEvent ol e) : isLockAttempt e = false := by
  rcases h with h | ⟨cl, h⟩ | h | h | h | h | h | h | h | h | h <;> subst h <;> rfl

theorem superviseChild_countP_attempt (env : Env) (ol : Nat × Nat) (evs0 : List Event) :
    ((superviseChild env ol evs0).1.countP isLockAttempt) =
      evs0.countP isLockAttempt := by
  obtain ⟨tail, ht, hmem⟩ := superviseChild_decomp env ol evs0
  rw [ht, List.countP_append]
  have hz : tail.countP isLockAttempt = 0 := by
    rw [List.countP_eq_zero]
    intro a ha
    simp [superviseEvent_not_lockAttempt (hmem a ha)]
  rw [hz, Nat.add_zero]

/-! ### Claim C3: the bounded-retry acquisition protocol -/

theorem run_countP_attempt_le (env : Env) (tr : List Event) (r : MainResult)
    (h : run env = (tr, r)) : tr.countP isLockAttempt ≤ 300 := by
  by_cases h3 : env.argv.length < 3
  · rw [run_usage env h3, Prod.mk.injEq] at h
    obtain ⟨h1, _⟩ := h
    subst h1
    simp
  · rcases hc : env.createFileErr with _ | c
    · rcases hl : lockLoopAux env.lockResult (0, 0) 0 300 with ⟨levs, lo⟩
      have hcnt : levs.countP isLockAttempt ≤ 300 := by
        have hle := lockLoopAux_countP_attempt_le env.lockResult (0, 0) 300 0
        rw [hl] at hle
        exact hle
      have hcc : List.countP isLockAttempt (Event.createFile :: levs) =
          levs.countP isLockAttempt := by
        simp [List.countP_cons, isLockAttempt]
      cases lo with
      | acquired =>
        rw [run_acquired env h3 hc levs hl] at h
        have hcp := superviseChild_countP_attempt env (0, 0) (Event.createFile :: levs)
        rw [h] at hcp
        simp only at hcp
        rw [hcp, hcc]
        exact hcnt
      | fatal c =>
        rw [run_lock_fatal env h3 hc levs c hl, Prod.mk.injEq] at h
        obtain ⟨h1, _⟩ := h
        subst h1
        rw [hcc]
        exact hcnt
      | exhausted =>
        rw [run_lock_exhausted env h3 hc levs hl, Prod.mk.injEq] at h
        obtain ⟨h1, _⟩ := h
        subst h1
        rw [hcc]
        exact hcnt
    · rw [run_createFile_fail env h3 c hc, Prod.mk.injEq] at h
      obtain ⟨h1, _⟩ := h
      subst h1
      decide

/-- C3: any execution performs at most 300 lock attempts; while the first k
attempts fail with the contention error ERROR_LOCK_VIOLATION, each is
immediately followed by the fixed 1000 ms sleep and the next attempt is made
(the `contentionEvents` rounds); and if attempt k instead fails with any
other error, the loop ends fatally on that very attempt with that error —
no sleep after it and no retry. -/
theorem c3_lock_retry_policy (env : Env) (tr : List Event) (r : MainResult)
    (res : Nat → LockAttemptResult) (k c : Nat) :
    (run env = (tr, r) → tr.countP isLockAttempt ≤ 300) ∧
    (k < 300 → (∀ j, j < k → res j = .failure ERROR_LOCK_VIOLATION) →
      ((res k = .success →
          lockLoopAux res (0, 0) 0 300 =
            (contentionEvents (0, 0) 0 k ++ [Event.lockAttempt k ⟨0, 0, 1, 0⟩],
             .acquired)) ∧
       (res k = .failure c → c ≠ ERROR_LOCK_VIOLATION →
          lockLoopAux res (0, 0) 0 300 =
            (contentionEvents (0, 0) 0 k ++ [Event.lockAttempt k ⟨0, 0, 1, 0⟩],
             .fatal c)))) := by
  refine ⟨run_countP_attempt_le env tr r, ?_⟩
  intro hk hcont
  constructor
  · intro hs
    have := lockLoopAux_first_success res (0, 0) k 300 0 hk
      (fun j hj => by simpa using hcont j hj) (by simpa using hs)
    simpa using this
  · intro hf hc
    have := lockLoopAux_first_fatal res (0, 0) k 300 0 c hk
      (fun j hj => by simpa using hcont j hj) (by simpa using hf) hc
    simpa using this

/-- Witness for C3: an execution whose first two attempts are contended and
whose third succeeds, and one whose third attempt fails with a
non-contention error (code 6). -/
theorem c3_lock_retry_policy_witness :
    ((run ⟨["w", "l", "c"], none,
        fun i => if i < 2 then .failure 33 else .success, .ok "x", none, none,
        none, none, none, none, .ok 0, none, none⟩).1.countP isLockAttempt ≤ 300) ∧
    lockLoopAux (fun i => if i < 2 then .failure 33 else .success) (0, 0) 0 300 =
      (contentionEvents (0, 0) 0 2 ++ [Event.lockAttempt 2 ⟨0, 0, 1, 0⟩],
       .acquired) ∧
    lockLoopAux (fun i => if i < 2 then .failure 33 else .failure 6) (0, 0) 0 300 =
      (contentionEvents (0, 0) 0 2 ++ [Event.lockAttempt 2 ⟨0, 0, 1, 0⟩],
       .fatal 6) := by
  refine ⟨?_, ?_, ?_⟩
  · exact (c3_lock_retry_policy
      ⟨["w", "l", "c"], none, fun i => if i < 2 then .failure 33 else .success,
        .ok "x", none, none, none, none, none, none, .ok 0, none, none⟩
      _ _ (fun _ => .success) 0 0).1 rfl
  · exact ((c3_lock_retry_policy
      ⟨["w", "l", "c"], none, fun _ => .success, .ok "x", none, none, none, none,
        none, none, .ok 0, none, none⟩ [] .usage
      (fun i => if i < 2 then .failure 33 else .success) 2 0).2
      (by decide) (fun j hj => by interval_cases j <;> rfl)).1 rfl
  · exact ((c3_lock_retry_policy
      ⟨["w", "l", "c"], none, fun _ => .success, .ok "x", none, none, none, none,
        none, none, .ok 0, none, none⟩ [] .usage
      (fun i => if i < 2 then .failure 33 else .failure 6) 2 6).2
      (by decide) (fun j hj => by interval_cases j <;> rfl)).2 rfl (by decide)

/-! ### Claim C9: the timeout path sleeps after every attempt -/

/-- C9: when all 300 attempts fail with contention, the trace is the
CreateFileA call followed by exactly 300 attempt-then-sleep rounds — so every
failed attempt, including the 300th and final one, is followed by its full
1000 ms sleep (the lock phase of the trace ends with a sleep) — and only
after all of them is the timeout error raised with ERROR_LOCK_VIOLATION. -/
theorem c9_timeout_sleeps (env : Env) (h3 : ¬ env.argv.length < 3)
    (hcf : env.createFileErr = none)
    (hall : ∀ j, j < 300 → env.lockResult j = .failure ERROR_LOCK_VIOLATION) :
    run env = (Event.createFile :: contentionEvents (0, 0) 0 300,
      .win32 "LockFileEx" ERROR_LOCK_VIOLATION) ∧
    (contentionEvents (0, 0) 0 300).countP isLockAttempt = 300 ∧
    (contentionEvents (0, 0) 0 300).countP isSleep = 300 ∧
    ∃ l, contentionEvents (0, 0) 0 300 = l ++ [Event.sleep 1000] := by
  have hloop := lockLoopAux_all_contention env.lockResult (0, 0) 300 0
    (fun j hj => by simpa using hall j hj)
  exact ⟨run_lock_exhausted env h3 hcf _ hloop,
    contentionEvents_countP_attempt (0, 0) 300 0,
    contentionEvents_countP_sleep (0, 0) 300 0,
    contentionEvents_ends_with_sleep (0, 0) 299 0⟩

/-- Witness for C9: every attempt contended. -/
theorem c9_timeout_sleeps_witness :
    run ⟨["w", "l", "c"], none, fun _ => .failure 33, .ok "x", none, none, none,
      none, none, none, .ok 0, none, none⟩ =
      (Event.createFile :: contentionEvents (0, 0) 0 300,
        .win32 "LockFileEx" ERROR_LOCK_VIOLATION) :=
  (c9_timeout_sleeps _ (by decide) rfl (fun _ _ => rfl)).1

/-! ### Claim C4: the timeout is distinguished by the contention code -/

/-- C4: exhausting all 300 attempts yields the LockFileEx failure carrying
the contention-specific code ERROR_LOCK_VIOLATION, while a fatal in-loop
acquisition failure always carries a code different from
ERROR_LOCK_VIOLATION and is surfaced with that code — so persistent busyness
is distinguished from every other acquisition failure by its error code. -/
theorem c4_lock_timeout_distinguished (env : Env) (levs : List Event) (c : Nat) :
    (¬ env.argv.length < 3 → env.createFileErr = none →
      (lockLoopAux env.lockResult (0, 0) 0 300).2 = .exhausted →
      (run env).2 = .win32 "LockFileEx" ERROR_LOCK_VIOLATION) ∧
    (lockLoopAux env.lockResult (0, 0) 0 300 = (levs, .fatal c) →
      c ≠ ERROR_LOCK_VIOLATION ∧
        (¬ env.argv.length < 3 → env.createFileErr = none →
          (run env).2 = .win32 "LockFileEx" c)) := by
  constructor
  · intro h3 hcf hex
    rcases hl : lockLoopAux env.lockResult (0, 0) 0 300 with ⟨levs', lo⟩
    rw [hl] at hex
    simp only at hex
    subst hex
    rw [run_lock_exhausted env h3 hcf levs' hl]
  · intro hl
    refine ⟨lockLoopAux_fatal_ne env.lockResult (0, 0) 300 0 levs c hl, ?_⟩
    intro h3 hcf
    rw [run_lock_fatal env h3 hcf levs c hl]

/-- Witness for C4: an all-contended run surfaces code 33, and a run whose
first attempt fails with code 6 surfaces code 6 (and 6 is not the
contention code). -/
theorem c4_lock_timeout_distinguished_witness :
    (run ⟨["w", "l", "c"], none, fun _ => .failure 33, .ok "x", none, none, none,
        none, none, none, .ok 0, none, none⟩).2 =
      .win32 "LockFileEx" ERROR_LOCK_VIOLATION ∧
    (6 ≠ ERROR_LOCK_VIOLATION ∧
      (run ⟨["w", "l", "c"], none, fun _ => .failure 6, .ok "x", none, none, none,
          none, none, none, .ok 0, none, none⟩).2 = .win32 "LockFileEx" 6) := by
  have hex := lockLoopAux_all_contention (fun _ => LockAttemptResult.failure 33)
    (0, 0) 300 0 (fun _ _ => rfl)
  have hfat := lockLoopAux_first_fatal (fun _ => LockAttemptResult.failure 6)
    (0, 0) 0 300 0 6 (by decide) (fun j hj => absurd hj (Nat.not_lt_zero j)) rfl
    (by decide)
  constructor
  · exact (c4_lock_timeout_distinguished
      ⟨["w", "l", "c"], none, fun _ => .failure 33, .ok "x", none, none, none,
        none, none, none, .ok 0, none, none⟩ [] 0).1 (by decide) rfl (by rw [hex])
  · have h := (c4_lock_timeout_distinguished
      ⟨["w", "l", "c"], none, fun _ => .failure 6, .ok "x", none, none, none,
        none, none, none, .ok 0, none, none⟩
      [Event.lockAttempt 0 ⟨0, 0, 1, 0⟩] 6).2 (by simpa [contentionEvents] using hfat)
    exact ⟨h.1, h.2 (by decide) rfl⟩

/-! ### Claim C10: lock and unlock cover the identical fixed byte range -/

theorem run_mem_ranges (env : Env) (tr : List Event) (r : MainResult)
    (h : run env = (tr, r)) (e : Event) (he : e ∈ tr) :
    (∀ i rg, e = Event.lockAttempt i rg → rg = ⟨0, 0, 1, 0⟩) ∧
    (∀ rg, e = Event.unlockFile rg → rg = ⟨0, 0, 1, 0⟩) := by
  by_cases h3 : env.argv.length < 3
  · rw [run_usage env h3, Prod.mk.injEq] at h
    obtain ⟨h1, _⟩ := h
    subst h1
    simp at he
  · rcases hc : env.createFileErr with _ | c
    · rcases hl : lockLoopAux env.lockResult (0, 0) 0 300 with ⟨levs, lo⟩
      have hloopmem : ∀ x ∈ levs,
          (∃ j, x = Event.lockAttempt j ⟨0, 0, 1, 0⟩) ∨ x = Event.sleep 1000 := by
        intro x hx
        have hm := lockLoopAux_mem env.lockResult (0, 0) 300 0 x (by rw [hl]; exact hx)
        simpa using hm
      have fromLoop : e ∈ Event.createFile :: levs →
          (∀ i rg, e = Event.lockAttempt i rg → rg = ⟨0, 0, 1, 0⟩) ∧
          (∀ rg, e = Event.unlockFile rg → rg = ⟨0, 0, 1, 0⟩) := by
        intro hmem
        rcases List.mem_cons.mp hmem with hcf | hlv
        · subst hcf
          exact ⟨(fun i rg hrg => nomatch hrg), (fun rg hrg => nomatch hrg)⟩
        · rcases hloopmem e hlv with ⟨j, hj⟩ | hs
          · subst hj
            refine ⟨(fun i rg hrg => ?_), (fun rg hrg => nomatch hrg)⟩
            cases hrg
            rfl
          · subst hs
            exact ⟨(fun i rg hrg => nomatch hrg), (fun rg hrg => nomatch hrg)⟩
      cases lo with
      | acquired =>
        rw [run_acquired env h3 hc levs hl] at h
        have h1 := congrArg Prod.fst h
        simp only at h1
        rw [← h1] at he
        rcases superviseChild_mem env (0, 0) (Event.createFile :: levs) e he with
          hm | hm
        · exact fromLoop hm
        · constructor
          · intro i rg hrg
            subst hrg
            simp [superviseEvent] at hm
          · intro rg hrg
            subst hrg
            simpa [superviseEvent] using hm
      | fatal c =>
        rw [run_lock_fatal env h3 hc levs c hl, Prod.mk.injEq] at h
        obtain ⟨h1, _⟩ := h
        subst h1
        exact fromLoop he
      | exhausted =>
        rw [run_lock_exhausted env h3 hc levs hl, Prod.mk.injEq] at h
        obtain ⟨h1, _⟩ := h
        subst h1
        exact fromLoop he
    · rw [run_createFile_fail env h3 c hc, Prod.mk.injEq] at h
      obtain ⟨h1, _⟩ := h
      subst h1
      simp only [List.mem_singleton] at he
      subst he
      exact ⟨(fun i rg hrg => nomatch hrg), (fun rg hrg => nomatch hrg)⟩

/-- C10: in every trace `run` can produce, every LockFileEx attempt and every
UnlockFileEx call carries the identical fixed byte range — the zeroed
OVERLAPPED offset and a length of one byte (low half 1, high half 0), i.e.
exactly 1 byte at absolute offset 0 — so a successful release frees
precisely the region a successful acquisition locked. -/
theorem c10_lock_unlock_same_range (env : Env) (tr : List Event) (r : MainResult)
    (h : run env = (tr, r)) :
    (∀ i rg, Event.lockAttempt i rg ∈ tr →
      rg = ⟨0, 0, 1, 0⟩ ∧ rg.offset = 0 ∧ rg.byteLength = 1) ∧
    (∀ rg, Event.unlockFile rg ∈ tr →
      rg = ⟨0, 0, 1, 0⟩ ∧ rg.offset = 0 ∧ rg.byteLength = 1) ∧
    (∀ i rg rg', Event.lockAttempt i rg ∈ tr → Event.unlockFile rg' ∈ tr →
      rg = rg') := by
  refine ⟨?_, ?_, ?_⟩
  · intro i rg hmem
    have h1 := (run_mem_ranges env tr r h _ hmem).1 i rg rfl
    subst h1
    exact ⟨rfl, rfl, rfl⟩
  · intro rg hmem
    have h1 := (run_mem_ranges env tr r h _ hmem).2 rg rfl
    subst h1
    exact ⟨rfl, rfl, rfl⟩
  · intro i rg rg' h1 h2
    rw [(run_mem_ranges env tr r h _ h1).1 i rg rfl,
      (run_mem_ranges env tr r h _ h2).2 rg' rfl]

/-- Witness for C10 at a fully successful concrete run. -/
theorem c10_lock_unlock_same_range_witness :
    (∀ i rg, Event.lockAttempt i rg ∈
        (run ⟨["w", "l", "c"], none, fun _ => .success, .ok "cmd.exe", none, none,
          none, none, none, none, .ok 0, none, none⟩).1 →
      rg = ⟨0, 0, 1, 0⟩ ∧ rg.offset = 0 ∧ rg.byteLength = 1) ∧
    (∀ rg, Event.unlockFile rg ∈
        (run ⟨["w", "l", "c"], none, fun _ => .success, .ok "cmd.exe", none, none,
          none, none, none, none, .ok 0, none, none⟩).1 →
      rg = ⟨0, 0, 1, 0⟩ ∧ rg.offset = 0 ∧ rg.byteLength = 1) ∧
    (∀ i rg rg', Event.lockAttempt i rg ∈
        (run ⟨["w", "l", "c"], none, fun _ => .success, .ok "cmd.exe", none, none,
          none, none, none, none, .ok 0, none, none⟩).1 →
      Event.unlockFile rg' ∈
        (run ⟨["w", "l", "c"], none, fun _ => .success, .ok "cmd.exe", none, none,
          none, none, none, none, .ok 0, none, none⟩).1 →
      rg = rg') :=
  c10_lock_unlock_same_range
    ⟨["w", "l", "c"], none, fun _ => .success, .ok "cmd.exe", none, none,
      none, none, none, none, .ok 0, none, none⟩ _ _ rfl

/-! ### Inversion: which environments complete normally -/

theorem superviseTail_childCode (env : Env) (ol : Nat × Nat) (evs0 : List Event)
    (k : Nat) (tr : List Event)
    (h : superviseTail env ol evs0 = (tr, .childCode k)) :
    env.resumeErr = none ∧ env.waitErr = none ∧ env.exitCodeRes = .ok k ∧
      env.unlockErr = none ∧ env.closeErr = none := by
  simp only [superviseTail] at h
  rcases hre : env.resumeErr with _ | c1 <;> simp only [hre] at h
  · rcases hwe : env.waitErr with _ | c2 <;> simp only [hwe] at h
    · rcases hec : env.exitCodeRes with c3 | k' <;> simp only [hec] at h
      · exact absurd (congrArg Prod.snd h) (by simp)
      · rcases hue : env.unlockErr with _ | c4 <;> simp only [hue] at h
        · rcases hce : env.closeErr with _ | c5 <;> simp only [hce] at h
          · have hsnd := congrArg Prod.snd h
            simp only at hsnd
            injection hsnd with hk
            subst hk
            exact ⟨rfl, rfl, rfl, rfl, rfl⟩
          · exact absurd (congrArg Prod.snd h) (by simp)
        · exact absurd (congrArg Prod.snd h) (by simp)
    · exact absurd (congrArg Prod.snd h) (by simp)
  · exact absurd (congrArg Prod.snd h) (by simp)

theorem superviseChild_childCode (env : Env) (ol : Nat × Nat) (evs0 : List Event)
    (k : Nat) (tr : List Event)
    (h : superviseChild env ol evs0 = (tr, .childCode k)) :
    (∃ p, env.pathSearch = .ok p) ∧ env.createProcessErr = none ∧
      env.createJobErr = none ∧ env.setInfoErr = none ∧
      (env.assignErr = none ∨ env.assignErr = some ERROR_ACCESS_DENIED) ∧
      env.resumeErr = none ∧ env.waitErr = none ∧ env.exitCodeRes = .ok k ∧
      env.unlockErr = none ∧ env.closeErr = none := by
  simp only [superviseChild] at h
  rcases hps : env.pathSearch with c0 | p <;> simp only [hps] at h
  · exact absurd (congrArg Prod.snd h) (by simp)
  · rcases hcpe : env.createProcessErr with _ | c1 <;> simp only [hcpe] at h
    · rcases hcje : env.createJobErr with _ | c2 <;> simp only [hcje] at h
      · rcases hsie : env.setInfoErr with _ | c3 <;> simp only [hsie] at h
        · rcases hae : env.assignErr with _ | c4 <;> simp only [hae] at h
          · obtain ⟨hre, hwe, hec, hue, hce⟩ :=
              superviseTail_childCode env ol _ k tr h
            exact ⟨⟨p, rfl⟩, rfl, rfl, rfl, Or.inl rfl, hre, hwe, hec, hue, hce⟩
          · by_cases hc4 : c4 = ERROR_ACCESS_DENIED
            · rw [if_neg (by simpa using hc4)] at h
              obtain ⟨hre, hwe, hec, hue, hce⟩ :=
                superviseTail_childCode env ol _ k tr h
              subst hc4
              exact ⟨⟨p, rfl⟩, rfl, rfl, rfl, Or.inr rfl, hre, hwe, hec, hue, hce⟩
            · rw [if_pos (by simpa using hc4)] at h
              exact absurd (congrArg Prod.snd h) (by simp)
        · exact absurd (congrArg Prod.snd h) (by simp)
      · exact absurd (congrArg Prod.snd h) (by simp)
    · exact absurd (congrArg Prod.snd h) (by simp)

theorem run_childCode (env : Env) (tr : List Event) (k : Nat)
    (h : run env = (tr, .childCode k)) :
    ¬ env.argv.length < 3 ∧ env.createFileErr = none ∧
      (lockLoopAux env.lockResult (0, 0) 0 300).2 = .acquired ∧
      (∃ p, env.pathSearch = .ok p) ∧ env.createProcessErr = none ∧
      env.createJobErr = none ∧ env.setInfoErr = none ∧
      (env.assignErr = none ∨ env.assignErr = some ERROR_ACCESS_DENIED) ∧
      env.resumeErr = none ∧ env.waitErr = none ∧ env.exitCodeRes = .ok k ∧
      env.unlockErr = none ∧ env.closeErr = none := by
  by_cases h3 : env.argv.length < 3
  · rw [run_usage env h3] at h
    exact absurd (congrArg Prod.snd h) (by simp)
  · rcases hc : env.createFileErr with _ | c
    · rcases hl : lockLoopAux env.lockResult (0, 0) 0 300 with ⟨levs, lo⟩
      cases lo with
      | acquired =>
        rw [run_acquired env h3 hc levs hl] at h
        obtain ⟨hps, hcpe, hcje, hsie, hae, hre, hwe, hec, hue, hce⟩ :=
          superviseChild_childCode env (0, 0) _ k tr h
        exact ⟨h3, rfl, rfl, hps, hcpe, hcje, hsie, hae, hre, hwe, hec,
          hue, hce⟩
      | fatal c =>
        rw [run_lock_fatal env h3 hc levs c hl] at h
        exact absurd (congrArg Prod.snd h) (by simp)
      | exhausted =>
        rw [run_lock_exhausted env h3 hc levs hl] at h
        exact absurd (congrArg Prod.snd h) (by simp)
    · rw [run_createFile_fail env h3 c hc] at h
      exact absurd (congrArg Prod.snd h) (by simp)

/-! ### Claim C2: strict step ordering on the normal-completion path -/

/-- C2: every execution that completes normally has the full trace shape
CreateFileA, then some contended lock rounds followed by the successful
acquisition attempt, then — in this strict order — executable resolution,
suspended child creation, job-object creation and configuration, attachment
to the job, resume, wait, exit-code retrieval, unlock, close.  Hence the
lock is acquired strictly before the child is created, the attachment step
precedes the resume, the wait and exit-code read precede the unlock, and no
step of Created(suspended) → GroupAttached → Running → Exited is skipped. -/
theorem c2_step_ordering (env : Env) (tr : List Event) (k : Nat)
    (h : run env = (tr, .childCode k)) :
    ∃ pre j cl,
      tr = Event.createFile :: pre ++
        [Event.lockAttempt j ⟨0, 0, 1, 0⟩, Event.pathSearch,
         Event.createProcessSuspended cl, Event.createJobObject,
         Event.setInfoJobObject, Event.assignToJob, Event.resumeChild,
         Event.waitChild, Event.getExitCode, Event.unlockFile ⟨0, 0, 1, 0⟩,
         Event.closeLockHandle] ∧
      env.lockResult j = .success ∧
      (∀ e ∈ pre, (∃ m rg, e = Event.lockAttempt m rg) ∨ e = Event.sleep 1000) := by
  obtain ⟨h3, hc, hacq, ⟨p, hps⟩, hcpe, hcje, hsie, hae, hre, hwe, hec, hue, hce⟩ :=
    run_childCode env tr k h
  rcases hl : lockLoopAux env.lockResult (0, 0) 0 300 with ⟨levs, lo⟩
  rw [hl] at hacq
  simp only at hacq
  subst hacq
  obtain ⟨pre, j, hlevs, hj, hpre⟩ :=
    lockLoopAux_acquired_decomp env.lockResult (0, 0) 300 0 levs hl
  refine ⟨pre, j, buildCommandLine p (env.argv.drop 3), ?_, hj, ?_⟩
  · rw [run_acquired env h3 hc levs hl] at h
    have htr := congrArg Prod.fst h
    simp only at htr
    rw [← htr]
    have hass : env.assignErr = none ∨ env.assignErr = some ERROR_ACCESS_DENIED :=
      hae
    rcases hass with hass | hass <;>
      simp only [superviseChild, superviseTail, hps, hcpe, hcje, hsie, hass,
        hre, hwe, hec, hue, hce, hlevs] <;>
      simp [List.append_assoc, ERROR_ACCESS_DENIED]
  · intro e he
    rcases hpre e he with ⟨m, rg, hrg⟩ | hs
    · exact Or.inl ⟨m, rg, hrg⟩
    · exact Or.inr hs

/-- Witness for C2 at a fully successful concrete run with one contended
round before acquisition. -/
theorem c2_step_ordering_witness :
    ∃ pre j cl,
      (run ⟨["w", "l", "c", "x y"], none,
        fun i => if i < 1 then .failure 33 else .success, .ok "cmd.exe", none,
        none, none, none, none, none, .ok 7, none, none⟩).1 =
        Event.createFile :: pre ++
          [Event.lockAttempt j ⟨0, 0, 1, 0⟩, Event.pathSearch,
           Event.createProcessSuspended cl, Event.createJobObject,
           Event.setInfoJobObject, Event.assignToJob, Event.resumeChild,
           Event.waitChild, Event.getExitCode, Event.unlockFile ⟨0, 0, 1, 0⟩,
           Event.closeLockHandle] ∧
      (fun i => if i < 1 then LockAttemptResult.failure 33 else .success) j =
        .success ∧
      (∀ e ∈ pre, (∃ m rg, e = Event.lockAttempt m rg) ∨ e = Event.sleep 1000) :=
  c2_step_ordering
    ⟨["w", "l", "c", "x y"], none,
      fun i => if i < 1 then .failure 33 else .success, .ok "cmd.exe", none,
      none, none, none, none, none, .ok 7, none, none⟩ _ 7 rfl

/-! ### Claim C8: AccessDenied tolerated only at job attachment -/

theorem superviseTail_assign_irrel (env : Env) (x : Option Nat) (ol : Nat × Nat)
    (evs : List Event) :
    superviseTail { env with assignErr := x } ol evs = superviseTail env ol evs := rfl

theorem superviseChild_assign_denied (env : Env) (ol : Nat × Nat) (evs : List Event)
    (hae : env.assignErr = some ERROR_ACCESS_DENIED) :
    superviseChild env ol evs =
      superviseChild { env with assignErr := none } ol evs := by
  simp only [superviseChild, hae]
  rcases hps : env.pathSearch with c0 | p <;> simp only [hps]
  rcases hcpe : env.createProcessErr with _ | c1 <;> simp only [hcpe]
  rcases hcje : env.createJobErr with _ | c2 <;> simp only [hcje]
  rcases hsie : env.setInfoErr with _ | c3 <;> simp only [hsie]
  rw [if_neg (by simp [ERROR_ACCESS_DENIED])]
  exact (superviseTail_assign_irrel env none ol _).symm

theorem run_assign_denied (env : Env)
    (hae : env.assignErr = some ERROR_ACCESS_DENIED) :
    run env = run { env with assignErr := none } := by
  obtain ⟨av, cfe, res, ps, cpe, cje, sie, ae, re, we, ec, ue, ce⟩ := env
  simp only at hae
  subst hae
  by_cases h3 : av.length < 3
  · rw [run_usage _ h3, run_usage _ h3]
  · cases cfe with
    | some c =>
      rw [run_createFile_fail _ h3 c rfl, run_createFile_fail _ h3 c rfl]
    | none =>
      rcases hl : lockLoopAux res (0, 0) 0 300 with ⟨levs, lo⟩
      cases lo with
      | acquired =>
        rw [run_acquired _ h3 rfl levs hl, run_acquired _ h3 rfl levs hl]
        exact superviseChild_assign_denied _ (0, 0) _ rfl
      | fatal c =>
        rw [run_lock_fatal _ h3 rfl levs c hl, run_lock_fatal _ h3 rfl levs c hl]
      | exhausted =>
        rw [run_lock_exhausted _ h3 rfl levs hl,
          run_lock_exhausted _ h3 rfl levs hl]

theorem superviseChild_assign_fatal (env : Env) (ol : Nat × Nat) (evs0 : List Event)
    (c : Nat) (hae : env.assignErr = some c) (hc5 : c ≠ ERROR_ACCESS_DENIED)
    (h1 : Event.resumeChild ∉ evs0) (h2 : Event.assignToJob ∉ evs0) :
    Event.resumeChild ∉ (superviseChild env ol evs0).1 ∧
    (Event.assignToJob ∈ (superviseChild env ol evs0).1 →
      (superviseChild env ol evs0).2 = .win32 "AssignProcessToJobObject" c) := by
  simp only [superviseChild, hae]
  rcases hps : env.pathSearch with c0 | p <;> simp only [hps]
  · constructor
    · simp [List.mem_append, h1]
    · intro hmem
      simp [List.mem_append, h2] at hmem
  · rcases hcpe : env.createProcessErr with _ | c1 <;> simp only [hcpe]
    · rcases hcje : env.createJobErr with _ | c2 <;> simp only [hcje]
      · rcases hsie : env.setInfoErr with _ | c3 <;> simp only [hsie]
        · rw [if_pos (by simpa using hc5)]
          constructor
          · simp [List.mem_append, h1]
          · intro _
            rfl
        · constructor
          · simp [List.mem_append, h1]
          · intro hmem
            simp [List.mem_append, h2] at hmem
      · constructor
        · simp [List.mem_append, h1]
        · intro hmem
          simp [List.mem_append, h2] at hmem
    · constructor
      · simp [List.mem_append, h1]
      · intro hmem
        simp [List.mem_append, h2] at hmem

theorem run_assign_fatal (env : Env) (c : Nat) (hae : env.assignErr = some c)
    (hc5 : c ≠ ERROR_ACCESS_DENIED) (k : Nat) :
    (run env).2 ≠ .childCode k ∧ Event.resumeChild ∉ (run env).1 ∧
      (Event.assignToJob ∈ (run env).1 →
        (run env).2 = .win32 "AssignProcessToJobObject" c) := by
  have hnosuccess : (run env).2 ≠ .childCode k := by
    intro hk
    have h : run env = ((run env).1, .childCode k) := Prod.ext_iff.mpr ⟨rfl, hk⟩
    have hass := (run_childCode env (run env).1 k h).2.2.2.2.2.2.2.1
    rcases hass with hass | hass <;> rw [hae] at hass
    · cases hass
    · injection hass with hass
      exact hc5 hass
  refine ⟨hnosuccess, ?_⟩
  by_cases h3 : env.argv.length < 3
  · rw [run_usage env h3]
    exact ⟨by simp, by simp⟩
  · rcases hc : env.createFileErr with _ | cf
    · rcases hl : lockLoopAux env.lockResult (0, 0) 0 300 with ⟨levs, lo⟩
      have hloopmem : ∀ x ∈ levs,
          (∃ j, x = Event.lockAttempt j ⟨0, 0, 1, 0⟩) ∨ x = Event.sleep 1000 := by
        intro x hx
        have hm := lockLoopAux_mem env.lockResult (0, 0) 300 0 x (by rw [hl]; exact hx)
        simpa using hm
      have hnores : Event.resumeChild ∉ Event.createFile :: levs := by
        intro hmem
        rcases List.mem_cons.mp hmem with hcf2 | hlv
        · cases hcf2
        · rcases hloopmem _ hlv with ⟨j, hj⟩ | hs
          · cases hj
          · cases hs
      have hnoassign : Event.assignToJob ∉ Event.createFile :: levs := by
        intro hmem
        rcases List.mem_cons.mp hmem with hcf2 | hlv
        · cases hcf2
        · rcases hloopmem _ hlv with ⟨j, hj⟩ | hs
          · cases hj
          · cases hs
      cases lo with
      | acquired =>
        rw [run_acquired env h3 hc levs hl]
        exact superviseChild_assign_fatal env (0, 0) _ c hae hc5 hnores hnoassign
      | fatal cf2 =>
        rw [run_lock_fatal env h3 hc levs cf2 hl]
        exact ⟨hnores, fun hmem => absurd hmem hnoassign⟩
      | exhausted =>
        rw [run_lock_exhausted env h3 hc levs hl]
        exact ⟨hnores, fun hmem => absurd hmem hnoassign⟩
    · rw [run_createFile_fail env h3 cf hc]
      exact ⟨by simp, by simp⟩

/-- C8: a failure of the job-attachment call with ERROR_ACCESS_DENIED is
tolerated — the run has exactly the same trace and result as if the
attachment had succeeded; an attachment failure with any other code is fatal
with that code (the child is never resumed, the run cannot complete, and
once the attachment call appears in the trace the result is that fatal
error); and attachment is the only OS call whose failure a completed run can
contain — a run ending with the child's exit code has every other call
succeeding and its attachment outcome either success or
ERROR_ACCESS_DENIED. -/
theorem c8_access_denied_tolerated (env : Env) (tr : List Event) (k : Nat) :
    (env.assignErr = some ERROR_ACCESS_DENIED →
      run env = run { env with assignErr := none }) ∧
    (∀ c, env.assignErr = some c → c ≠ ERROR_ACCESS_DENIED →
      (run env).2 ≠ .childCode k ∧ Event.resumeChild ∉ (run env).1 ∧
      (Event.assignToJob ∈ (run env).1 →
        (run env).2 = .win32 "AssignProcessToJobObject" c)) ∧
    (run env = (tr, .childCode k) →
      env.createFileErr = none ∧
      (lockLoopAux env.lockResult (0, 0) 0 300).2 = .acquired ∧
      (∃ p, env.pathSearch = .ok p) ∧ env.createProcessErr = none ∧
      env.createJobErr = none ∧ env.setInfoErr = none ∧
      (env.assignErr = none ∨ env.assignErr = some ERROR_ACCESS_DENIED) ∧
      env.resumeErr = none ∧ env.waitErr = none ∧ env.exitCodeRes = .ok k ∧
      env.unlockErr = none ∧ env.closeErr = none) :=
  ⟨run_assign_denied env,
   fun c hae hc5 => run_assign_fatal env c hae hc5 k,
   fun h => (run_childCode env tr k h).2⟩

/-- Witness for C8: a denied attachment that still completes, a fatally
failing attachment with code 6, and the inversion at the completed denied
run. -/
theorem c8_access_denied_tolerated_witness :
    run ⟨["w", "l", "c"], none, fun _ => .success, .ok "cmd.exe", none, none,
        none, some ERROR_ACCESS_DENIED, none, none, .ok 7, none, none⟩ =
      run { (⟨["w", "l", "c"], none, fun _ => .success, .ok "cmd.exe", none,
          none, none, some ERROR_ACCESS_DENIED, none, none, .ok 7, none,
          none⟩ : Env) with assignErr := none } ∧
    (run ⟨["w", "l", "c"], none, fun _ => .success, .ok "cmd.exe", none, none,
        none, some 6, none, none, .ok 7, none, none⟩).2 =
      .win32 "AssignProcessToJobObject" 6 ∧
    ((some ERROR_ACCESS_DENIED : Option Nat) = none ∨
      (some ERROR_ACCESS_DENIED : Option Nat) = some ERROR_ACCESS_DENIED) := by
  refine ⟨?_, ?_, ?_⟩
  · exact (c8_access_denied_tolerated
      ⟨["w", "l", "c"], none, fun _ => .success, .ok "cmd.exe", none, none,
        none, some ERROR_ACCESS_DENIED, none, none, .ok 7, none, none⟩ [] 0).1 rfl
  · exact ((c8_access_denied_tolerated
      ⟨["w", "l", "c"], none, fun _ => .success, .ok "cmd.exe", none, none,
        none, some 6, none, none, .ok 7, none, none⟩ [] 0).2.1 6 rfl
      (by decide)).2.2 (by decide)
  · exact ((c8_access_denied_tolerated
      ⟨["w", "l", "c"], none, fun _ => .success, .ok "cmd.exe", none, none,
        none, some ERROR_ACCESS_DENIED, none, none, .ok 7, none, none⟩
      (run ⟨["w", "l", "c"], none, fun _ => .success, .ok "cmd.exe", none,
        none, none, some ERROR_ACCESS_DENIED, none, none, .ok 7, none,
        none⟩).1 7).2.2 rfl).2.2.2.2.2.2.1

/-! ### Claim C1: when are unlock and close performed -/

theorem superviseTail_cleanup (env : Env) (ol : Nat × Nat) (evs0 : List Event)
    (tr : List Event) (r : MainResult) (h : superviseTail env ol evs0 = (tr, r))
    (h1 : ∀ rg, Event.unlockFile rg ∉ evs0) (h2 : Event.closeLockHandle ∉ evs0) :
    ((∃ rg, Event.unlockFile rg ∈ tr) ↔
      (∃ k, r = .childCode k) ∨ (∃ c, r = .win32 "UnlockFileEx" c) ∨
        (∃ c, r = .win32 "CloseHandle" c)) ∧
    (Event.closeLockHandle ∈ tr ↔
      (∃ k, r = .childCode k) ∨ (∃ c, r = .win32 "CloseHandle" c)) := by
  simp only [superviseTail] at h
  rcases hre : env.resumeErr with _ | c1 <;> simp only [hre] at h
  · rcases hwe : env.waitErr with _ | c2 <;> simp only [hwe] at h
    · rcases hec : env.exitCodeRes with c3 | k <;> simp only [hec] at h
      · rw [Prod.mk.injEq] at h
        obtain ⟨htr, hr⟩ := h
        subst htr
        subst hr
        simp [List.mem_append, h1, h2]
      · rcases hue : env.unlockErr with _ | c4 <;> simp only [hue] at h
        · rcases hce : env.closeErr with _ | c5 <;> simp only [hce] at h
          · rw [Prod.mk.injEq] at h
            obtain ⟨htr, hr⟩ := h
            subst htr
            subst hr
            simp [List.mem_append, h1, h2]
          · rw [Prod.mk.injEq] at h
            obtain ⟨htr, hr⟩ := h
            subst htr
            subst hr
            simp [List.mem_append, h1, h2]
        · rw [Prod.mk.injEq] at h
          obtain ⟨htr, hr⟩ := h
          subst htr
          subst hr
          simp [List.mem_append, h1, h2]
    · rw [Prod.mk.injEq] at h
      obtain ⟨htr, hr⟩ := h
      subst htr
      subst hr
      simp [List.mem_append, h1, h2]
  · rw [Prod.mk.injEq] at h
    obtain ⟨htr, hr⟩ := h
    subst htr
    subst hr
    simp [List.mem_append, h1, h2]

theorem superviseChild_cleanup (env : Env) (ol : Nat × Nat) (evs0 : List Event)
    (tr : List Event) (r : MainResult) (h : superviseChild env ol evs0 = (tr, r))
    (h1 : ∀ rg, Event.unlockFile rg ∉ evs0) (h2 : Event.closeLockHandle ∉ evs0) :
    ((∃ rg, Event.unlockFile rg ∈ tr) ↔
      (∃ k, r = .childCode k) ∨ (∃ c, r = .win32 "UnlockFileEx" c) ∨
        (∃ c, r = .win32 "CloseHandle" c)) ∧
    (Event.closeLockHandle ∈ tr ↔
      (∃ k, r = .childCode k) ∨ (∃ c, r = .win32 "CloseHandle" c)) := by
  have h1L : ∀ (l : List Event),
      (∀ x ∈ l, isUnlockFile x = false ∧ x ≠ Event.closeLockHandle) →
      (∀ rg, Event.unlockFile rg ∉ evs0 ++ l) ∧
        Event.closeLockHandle ∉ evs0 ++ l := by
    intro l hl
    constructor
    · intro rg hmem
      rcases List.mem_append.mp hmem with hm | hm
      · exact h1 rg hm
      · have := (hl _ hm).1
        simp [isUnlockFile] at this
    · intro hmem
      rcases List.mem_append.mp hmem with hm | hm
      · exact h2 hm
      · exact (hl _ hm).2 rfl
  simp only [superviseChild] at h
  rcases hps : env.pathSearch with c0 | p <;> simp only [hps] at h
  · rw [Prod.mk.injEq] at h
    obtain ⟨htr, hr⟩ := h
    subst htr
    subst hr
    simp [List.mem_append, h1, h2]
  · rcases hcpe : env.createProcessErr with _ | c1 <;> simp only [hcpe] at h
    · rcases hcje : env.createJobErr with _ | c2 <;> simp only [hcje] at h
      · rcases hsie : env.setInfoErr with _ | c3 <;> simp only [hsie] at h
        · rcases hae : env.assignErr with _ | c4 <;> simp only [hae] at h
          · rw [List.append_assoc, List.append_assoc, List.append_assoc,
              List.append_assoc] at h
            obtain ⟨ha, hb⟩ := h1L
              ([Event.pathSearch] ++
                ([Event.createProcessSuspended
                    (buildCommandLine p (env.argv.drop 3))] ++
                  ([Event.createJobObject] ++
                    ([Event.setInfoJobObject] ++ [Event.assignToJob]))))
              (by intro x hx; fin_cases hx <;> simp [isUnlockFile])
            exact superviseTail_cleanup env ol _ tr r h ha hb
          · by_cases hc4 : c4 = ERROR_ACCESS_DENIED
            · rw [if_neg (by simpa using hc4)] at h
              rw [List.append_assoc, List.append_assoc, List.append_assoc,
                List.append_assoc] at h
              obtain ⟨ha, hb⟩ := h1L
                ([Event.pathSearch] ++
                  ([Event.createProcessSuspended
                      (buildCommandLine p (env.argv.drop 3))] ++
                    ([Event.createJobObject] ++
                      ([Event.setInfoJobObject] ++ [Event.assignToJob]))))
                (by intro x hx; fin_cases hx <;> simp [isUnlockFile])
              exact superviseTail_cleanup env ol _ tr r h ha hb
            · rw [if_pos (by simpa using hc4)] at h
              rw [Prod.mk.injEq] at h
              obtain ⟨htr, hr⟩ := h
              subst htr
              subst hr
              simp [List.mem_append, h1, h2]
        · rw [Prod.mk.injEq] at h
          obtain ⟨htr, hr⟩ := h
          subst htr
          subst hr
          simp [List.mem_append, h1, h2]
      · rw [Prod.mk.injEq] at h
        obtain ⟨htr, hr⟩ := h
        subst htr
        subst hr
        simp [List.mem_append, h1, h2]
    · rw [Prod.mk.injEq] at h
      obtain ⟨htr, hr⟩ := h
      subst htr
      subst hr
      simp [List.mem_append, h1, h2]

/-- C1 counterexample: an execution that acquires the lock on the first
attempt and then fails at CreateProcessA (error code 2).  The loop outcome
is `acquired`, yet the trace of the whole run contains no UnlockFileEx call
and no CloseHandle on the lock file: the catch handler (lines 197-229 of the
source) performs no cleanup, so "the lock is released and the lock-file
handle closed before the process exits on every code path" fails on this
error path. -/
theorem c1_counterexample :
    (lockLoopAux (fun _ => LockAttemptResult.success) (0, 0) 0 300).2 =
      LoopOutcome.acquired ∧
    run ⟨["w", "l", "c"], none, fun _ => .success, .ok "cmd.exe", some 2, none,
        none, none, none, none, .ok 0, none, none⟩ =
      ([Event.createFile, Event.lockAttempt 0 ⟨0, 0, 1, 0⟩, Event.pathSearch,
        Event.createProcessSuspended "cmd.exe"],
       .win32 "CreateProcessA" 2) ∧
    [Event.createFile, Event.lockAttempt 0 ⟨0, 0, 1, 0⟩, Event.pathSearch,
      Event.createProcessSuspended "cmd.exe"].countP isUnlockFile = 0 ∧
    Event.closeLockHandle ∉
      [Event.createFile, Event.lockAttempt 0 ⟨0, 0, 1, 0⟩, Event.pathSearch,
        Event.createProcessSuspended "cmd.exe"] :=
  ⟨rfl, by decide, by decide, by decide⟩

/-- C1 (amended): the unlock and close calls on the lock file are attempted
exactly on executions in which every step through exit-code retrieval
succeeded: the UnlockFileEx call appears in the trace iff the run ends with
the child's exit code or with an UnlockFileEx or CloseHandle failure, and
the CloseHandle call on the lock file appears iff the run ends with the
child's exit code or with a CloseHandle failure.  On every other error path
after acquisition the process exits without explicitly releasing the lock
or closing the handle (the operating system reclaims both implicitly at
process termination); when unlock or close is attempted and fails, that
failure is reported as the fatal result. -/
theorem c1_cleanup_only_on_success (env : Env) (tr : List Event) (r : MainResult)
    (h : run env = (tr, r)) :
    ((∃ rg, Event.unlockFile rg ∈ tr) ↔
      (∃ k, r = .childCode k) ∨ (∃ c, r = .win32 "UnlockFileEx" c) ∨
        (∃ c, r = .win32 "CloseHandle" c)) ∧
    (Event.closeLockHandle ∈ tr ↔
      (∃ k, r = .childCode k) ∨ (∃ c, r = .win32 "CloseHandle" c)) := by
  by_cases h3 : env.argv.length < 3
  · rw [run_usage env h3, Prod.mk.injEq] at h
    obtain ⟨htr, hr⟩ := h
    subst htr
    subst hr
    simp
  · rcases hc : env.createFileErr with _ | c
    · rcases hl : lockLoopAux env.lockResult (0, 0) 0 300 with ⟨levs, lo⟩
      have hloopmem : ∀ x ∈ levs,
          (∃ j, x = Event.lockAttempt j ⟨0, 0, 1, 0⟩) ∨ x = Event.sleep 1000 := by
        intro x hx
        have hm := lockLoopAux_mem env.lockResult (0, 0) 300 0 x (by rw [hl]; exact hx)
        simpa using hm
      have hnoU : ∀ rg, Event.unlockFile rg ∉ Event.createFile :: levs := by
        intro rg hmem
        rcases List.mem_cons.mp hmem with hcf2 | hlv
        · cases hcf2
        · rcases hloopmem _ hlv with ⟨j, hj⟩ | hs
          · cases hj
          · cases hs
      have hnoC : Event.closeLockHandle ∉ Event.createFile :: levs := by
        intro hmem
        rcases List.mem_cons.mp hmem with hcf2 | hlv
        · cases hcf2
        · rcases hloopmem _ hlv with ⟨j, hj⟩ | hs
          · cases hj
          · cases hs
      have hnoU2 : ∀ rg, Event.unlockFile rg ∉ levs :=
        fun rg hm => hnoU rg (List.mem_cons_of_mem _ hm)
      have hnoC2 : Event.closeLockHandle ∉ levs :=
        fun hm => hnoC (List.mem_cons_of_mem _ hm)
      cases lo with
      | acquired =>
        rw [run_acquired env h3 hc levs hl] at h
        exact superviseChild_cleanup env (0, 0) _ tr r h hnoU hnoC
      | fatal c =>
        rw [run_lock_fatal env h3 hc levs c hl, Prod.mk.injEq] at h
        obtain ⟨htr, hr⟩ := h
        subst htr
        subst hr
        constructor
        · simp [hnoU2]
        · simp [hnoC2]
      | exhausted =>
        rw [run_lock_exhausted env h3 hc levs hl, Prod.mk.injEq] at h
        obtain ⟨htr, hr⟩ := h
        subst htr
        subst hr
        constructor
        · simp [hnoU2]
        · simp [hnoC2]
    · rw [run_createFile_fail env h3 c hc, Prod.mk.injEq] at h
      obtain ⟨htr, hr⟩ := h
      subst htr
      subst hr
      simp

/-- Witness for C1 (amended) at the CreateProcessA-failure execution. -/
theorem c1_cleanup_only_on_success_witness :
    ((∃ rg, Event.unlockFile rg ∈
        (run ⟨["w", "l", "c"], none, fun _ => .success, .ok "cmd.exe", some 2,
          none, none, none, none, none, .ok 0, none, none⟩).1) ↔
      (∃ k, (run ⟨["w", "l", "c"], none, fun _ => .success, .ok "cmd.exe",
          some 2, none, none, none, none, none, .ok 0, none, none⟩).2 =
        .childCode k) ∨
      (∃ c, (run ⟨["w", "l", "c"], none, fun _ => .success, .ok "cmd.exe",
          some 2, none, none, none, none, none, .ok 0, none, none⟩).2 =
        .win32 "UnlockFileEx" c) ∨
      (∃ c, (run ⟨["w", "l", "c"], none, fun _ => .success, .ok "cmd.exe",
          some 2, none, none, none, none, none, .ok 0, none, none⟩).2 =
        .win32 "CloseHandle" c)) ∧
    (Event.closeLockHandle ∈
        (run ⟨["w", "l", "c"], none, fun _ => .success, .ok "cmd.exe", some 2,
          none, none, none, none, none, .ok 0, none, none⟩).1 ↔
      (∃ k, (run ⟨["w", "l", "c"], none, fun _ => .success, .ok "cmd.exe",
          some 2, none, none, none, none, none, .ok 0, none, none⟩).2 =
        .childCode k) ∨
      (∃ c, (run ⟨["w", "l", "c"], none, fun _ => .success, .ok "cmd.exe",
          some 2, none, none, none, none, none, .ok 0, none, none⟩).2 =
        .win32 "CloseHandle" c)) :=
  c1_cleanup_only_on_success
    ⟨["w", "l", "c"], none, fun _ => .success, .ok "cmd.exe", some 2,
      none, none, none, none, none, .ok 0, none, none⟩
    (run ⟨["w", "l", "c"], none, fun _ => .success, .ok "cmd.exe", some 2,
      none, none, none, none, none, .ok 0, none, none⟩).1
    (run ⟨["w", "l", "c"], none, fun _ => .success, .ok "cmd.exe", some 2,
      none, none, none, none, none, .ok 0, none, none⟩).2
    rfl

end Withlockfile
